import Mathlib

/-!
Shallow embedding of the EasyAccess client library (`easyaccess` Python
package): the typed value model (`iotypemodel/meta_model.py`), the error
stack (`error/error.py`, `iotypemodel/_error.py`), the IOType registry
(`iotypemodel/iotype_model.py`) and the remote-algorithm proxy
(`remote_algorithm.py`).

Python values are modelled by the inductive `Value`; Python floats are
modelled by rationals (the claims under study never exercise rounding).
Raising an exception is modelled by returning `Except.error`; a Python
function that always raises is modelled by a total function returning the
raised exception.
-/

namespace EasyAccess

/-- Model of the Python values that flow through the library: `None`,
`int`, `float` (as a rational), `str`, `list`, and `dict` with string keys
(insertion-ordered association list, as Python dicts are). -/
inductive Value where
  | none : Value
  | int (n : Int) : Value
  | float (q : ℚ) : Value
  | str (s : String) : Value
  | list (l : List Value) : Value
  | dict (d : List (String × Value)) : Value

/-- Exception classes that the embedded code can raise.  The three
`ioType*` kinds are the classes defined in `iotypemodel/_error.py`. -/
inductive ErrKind where
  | ioTypeMetaError
  | ioTypeConditionFormatError
  | ioTypeConditionMatchError
  | runtimeError
  | syntaxError
  | typeError
  | valueError
  | keyError
  | keyboardInterrupt
  | reError
  | notImplementedKind
deriving DecidableEq

/-- A raised Python exception: its class and its message. -/
structure PyErr where
  kind : ErrKind
  msg : String
deriving DecidableEq

/-- One registered entry of an `ErrorStack` (`error/error.py`): the error
message (`info`) and the exception class to raise (`type`). -/
structure ErrEntry where
  info : String
  type : ErrKind
deriving DecidableEq

/-- `ErrorStack` from `error/error.py`: a mapping from error id to entry. -/
structure ErrorStack where
  errs : List (String × ErrEntry)

/-- The `_err_unknown` class attribute of `ErrorStack`:
`('ERR-UNKNOWN', 'Unknown error', RuntimeError)`. -/
def errUnknown : String × String × ErrKind :=
  ("ERR-UNKNOWN", "Unknown error", ErrKind.runtimeError)

/-- `ErrorStack.__getitem__`: looking up an error id ALWAYS raises.  The
raised exception (class and formatted message) is returned as the value of
this total function; it never fails with a missing-key error because the
membership test guards the mapping access. -/
def ErrorStack.getitem (st : ErrorStack) (errid : String) : ErrKind × String :=
  match List.lookup errid st.errs with
  | Option.none =>
      (errUnknown.2.2, "[" ++ errUnknown.1 ++ "] " ++ errUnknown.2.1)
  | Option.some e => (e.type, "[" ++ errid ++ "] " ++ e.info)

/-- The concrete `error_stack` instantiated in `iotypemodel/_error.py`. -/
def error_stack : ErrorStack :=
  ⟨[("IO-META-NUM", ⟨"Not float data", ErrKind.ioTypeMetaError⟩),
    ("IO-META-NUM-MIN", ⟨"Value smaller than min", ErrKind.ioTypeConditionMatchError⟩),
    ("IO-META-NUM-MAX", ⟨"Value larger than max", ErrKind.ioTypeConditionMatchError⟩),
    ("IO-META-NUM-MINMAX", ⟨"Min > Max", ErrKind.ioTypeConditionFormatError⟩),
    ("IO-META-NUM-IRR", ⟨"Irregular conditional format", ErrKind.ioTypeConditionFormatError⟩),
    ("IO-META-STR", ⟨"Not string data", ErrKind.ioTypeMetaError⟩),
    ("IO-META-STR-IRR", ⟨"Irregular conditional format", ErrKind.ioTypeConditionFormatError⟩),
    ("IO-META-STR-NM", ⟨"Regular expression not match", ErrKind.ioTypeConditionMatchError⟩),
    ("IO-META-NUMARR", ⟨"Not float array", ErrKind.ioTypeMetaError⟩),
    ("IO-META-NUMARR-IRR", ⟨"Float array not support condition", ErrKind.ioTypeConditionFormatError⟩)]⟩

/-- `error_stack[errid]` as used by the meta model: the exception raised
by the stack lookup. -/
def raiseStack (errid : String) : PyErr :=
  let e := ErrorStack.getitem error_stack errid
  ⟨e.1, e.2⟩

/-- Accumulate a list of decimal digits into a natural number. -/
def digitsToNat (ds : List Char) : Nat :=
  ds.foldl (fun acc c => acc * 10 + (c.toNat - 48)) 0

/-- Model of Python `float(s)` on a string: optional surrounding
whitespace, optional sign, then decimal digits with an optional fractional
part.  (The exponent / `inf` / `nan` forms of the builtin are outside the
behaviour the claims exercise and are not modelled.) -/
def pyParseFloat (s : String) : Option ℚ :=
  let cs := s.data.dropWhile Char.isWhitespace
  let csr := (cs.reverse.dropWhile Char.isWhitespace).reverse
  let sb : ℚ × List Char :=
    match csr with
    | '-' :: rest => (-1, rest)
    | '+' :: rest => (1, rest)
    | _ => (1, csr)
  let intPart := sb.2.takeWhile Char.isDigit
  let rest1 := sb.2.dropWhile Char.isDigit
  match rest1 with
  | [] =>
      if intPart.isEmpty then Option.none
      else Option.some (sb.1 * (digitsToNat intPart : ℚ))
  | '.' :: fracRest =>
      let fracPart := fracRest.takeWhile Char.isDigit
      let rest2 := fracRest.dropWhile Char.isDigit
      if rest2 ≠ [] then Option.none
      else if intPart.isEmpty ∧ fracPart.isEmpty then Option.none
      else Option.some
        (sb.1 * ((digitsToNat intPart : ℚ) +
          (digitsToNat fracPart : ℚ) / ((10 : ℚ) ^ fracPart.length)))
  | _ => Option.none

/-- Model of the builtin `float(data)`: numbers coerce, strings are
parsed, everything else raises `TypeError`. -/
def pyFloat (data : Value) : Except PyErr ℚ :=
  match data with
  | Value.int n => Except.ok (n : ℚ)
  | Value.float q => Except.ok q
  | Value.str s =>
      match pyParseFloat s with
      | Option.some q => Except.ok q
      | Option.none =>
          Except.error ⟨ErrKind.valueError, "could not convert string to float: " ++ s⟩
  | _ => Except.error ⟨ErrKind.typeError, "float() argument must be a string or a real number"⟩

/-- Model of Python iteration (`for item in data`): lists yield their
elements, strings yield their characters as one-character strings, dicts
yield their keys; other values are not iterable (`TypeError`). -/
def pyIter (data : Value) : Except PyErr (List Value) :=
  match data with
  | Value.list l => Except.ok l
  | Value.str s => Except.ok (s.data.map (fun c => Value.str (String.singleton c)))
  | Value.dict d => Except.ok (d.map (fun kv => Value.str kv.1))
  | _ => Except.error ⟨ErrKind.typeError, "object is not iterable"⟩

/-- Model of `dict.get(key)`: the stored value, or `None` when the key is
absent. -/
def pyDictGet (d : List (String × Value)) (k : String) : Value :=
  (List.lookup k d).getD Value.none

/-- `v is None` as a boolean. -/
def Value.isNone : Value → Bool
  | Value.none => true
  | _ => false

/-- Model of Python `a >= b` as used on condition bounds: numeric values
compare numerically, strings lexicographically, anything else raises
`TypeError`. -/
def pyGe (a b : Value) : Except PyErr Bool :=
  match a, b with
  | Value.int x, Value.int y => Except.ok (decide (y ≤ x))
  | Value.int x, Value.float y => Except.ok (decide (y ≤ (x : ℚ)))
  | Value.float x, Value.int y => Except.ok (decide ((y : ℚ) ≤ x))
  | Value.float x, Value.float y => Except.ok (decide (y ≤ x))
  | Value.str s1, Value.str s2 => Except.ok (decide (s2 ≤ s1))
  | _, _ => Except.error ⟨ErrKind.typeError, "unsupported operand types for comparison"⟩

/-- `IOMetaTypeNumber._format`: `float(data)`, with any failure replaced
by the raised `error_stack['IO-META-NUM']`. -/
def numberFormat (data : Value) : Except PyErr ℚ :=
  match pyFloat data with
  | Except.ok q => Except.ok q
  | Except.error _ => Except.error (raiseStack "IO-META-NUM")

/-- `IOMetaTypeNumber._check`: `None` passes, a dict condition is checked
against its `min` / `max` bounds in source order (min-max format check,
then min, then max), any other condition raises `IO-META-NUM-IRR`. -/
def numberCheck (meta_data : ℚ) (condition : Value) : Except PyErr ℚ :=
  match condition with
  | Value.none => Except.ok meta_data
  | Value.dict d =>
      let mn := pyDictGet d "min"
      let mx := pyDictGet d "max"
      do
        if !mn.isNone && !mx.isNone then
          let ge ← pyGe mn mx
          if ge then throw (raiseStack "IO-META-NUM-MINMAX")
        if !mn.isNone then
          let fmn ← pyFloat mn
          if meta_data < fmn then throw (raiseStack "IO-META-NUM-MIN")
        if !mx.isNone then
          let fmx ← pyFloat mx
          if meta_data > fmx then throw (raiseStack "IO-META-NUM-MAX")
        return meta_data
  | _ => Except.error (raiseStack "IO-META-NUM-IRR")

/-- `IOMetaTypeNumberArray._format`: `[float(item) for item in data]`,
with any failure replaced by the raised `error_stack['IO-META-NUMARR']`. -/
def numarrayFormat (data : Value) : Except PyErr (List ℚ) :=
  match (do
      let items ← pyIter data
      items.mapM pyFloat : Except PyErr (List ℚ)) with
  | Except.ok l => Except.ok l
  | Except.error _ => Except.error (raiseStack "IO-META-NUMARR")

/-- `IOMetaTypeNumberArray._check`: only the absent (`None`) condition is
accepted; any other condition raises `IO-META-NUMARR-IRR`. -/
def numarrayCheck (meta_data : List ℚ) (condition : Value) : Except PyErr (List ℚ) :=
  match condition with
  | Value.none => Except.ok meta_data
  | _ => Except.error (raiseStack "IO-META-NUMARR-IRR")

/-- Regular expressions over characters: the semantic domain into which
`re` patterns are compiled.  A character class is a boolean predicate on
characters (this uniformly covers literals, `.`, bracket classes and the
one-letter escape classes). -/
inductive Regex where
  | emp : Regex
  | eps : Regex
  | cls (p : Char → Bool) : Regex
  | alt (r1 r2 : Regex) : Regex
  | cat (r1 r2 : Regex) : Regex
  | star (r : Regex) : Regex

/-- The language of a regular expression, as an inductive matching
relation on whole character lists. -/
inductive RMatch : Regex → List Char → Prop where
  | eps : RMatch Regex.eps []
  | cls {p : Char → Bool} {c : Char} : p c = true → RMatch (Regex.cls p) [c]
  | altL {r1 r2 : Regex} {s : List Char} : RMatch r1 s → RMatch (Regex.alt r1 r2) s
  | altR {r1 r2 : Regex} {s : List Char} : RMatch r2 s → RMatch (Regex.alt r1 r2) s
  | cat {r1 r2 : Regex} {s1 s2 : List Char} :
      RMatch r1 s1 → RMatch r2 s2 → RMatch (Regex.cat r1 r2) (s1 ++ s2)
  | starNil {r : Regex} : RMatch (Regex.star r) []
  | starCat {r : Regex} {s1 s2 : List Char} :
      RMatch r s1 → RMatch (Regex.star r) s2 → RMatch (Regex.star r) (s1 ++ s2)

/-- Whether a regular expression accepts the empty word. -/
def nullable : Regex → Bool
  | Regex.emp => false
  | Regex.eps => true
  | Regex.cls _ => false
  | Regex.alt r1 r2 => nullable r1 || nullable r2
  | Regex.cat r1 r2 => nullable r1 && nullable r2
  | Regex.star _ => true

/-- Brzozowski derivative of a regular expression by a character. -/
def deriv (r : Regex) (c : Char) : Regex :=
  match r with
  | Regex.emp => Regex.emp
  | Regex.eps => Regex.emp
  | Regex.cls p => if p c then Regex.eps else Regex.emp
  | Regex.alt r1 r2 => Regex.alt (deriv r1 c) (deriv r2 c)
  | Regex.cat r1 r2 =>
      if nullable r1 then Regex.alt (Regex.cat (deriv r1 c) r2) (deriv r2 c)
      else Regex.cat (deriv r1 c) r2
  | Regex.star r1 => Regex.cat (deriv r1 c) (Regex.star r1)

/-- Derivative-based whole-word matcher. -/
def rmatch (r : Regex) (s : List Char) : Bool :=
  nullable (s.foldl deriv r)

/-- Membership predicate built from a bracket class: ranges (a single
character is the degenerate range), possibly negated. -/
def classPred (neg : Bool) (items : List (Char × Char)) : Char → Bool :=
  fun c => xor neg (items.any (fun p => decide (p.1 ≤ c) && decide (c ≤ p.2)))

/-- Classes denoted by the one-letter escapes the model supports; any
other escaped character denotes itself. -/
def escPred (c : Char) : Char → Bool :=
  match c with
  | 'd' => fun x => x.isDigit
  | 'w' => fun x => x.isAlphanum || decide (x = '_')
  | 's' => fun x => x.isWhitespace
  | _ => fun x => decide (x = c)

/-- Read the items of a bracket class up to the closing bracket. -/
def parseClsItems : Nat → List Char → List (Char × Char) →
    Option (List (Char × Char) × List Char)
  | _, [], _ => Option.none
  | _, ']' :: rest, acc => Option.some (acc.reverse, rest)
  | fuel + 1, '\\' :: a :: rest, acc => parseClsItems fuel rest ((a, a) :: acc)
  | fuel + 1, a :: '-' :: b :: rest, acc =>
      if b = ']' then Option.some ((('-', '-') :: (a, a) :: acc).reverse, rest)
      else parseClsItems fuel rest ((a, b) :: acc)
  | fuel + 1, a :: rest, acc => parseClsItems fuel rest ((a, a) :: acc)
  | 0, _, _ => Option.none

/-- Apply the postfix repetition operators following an atom. -/
def parsePostOps : Nat → Regex → List Char → Option (Regex × List Char)
  | 0, _, _ => Option.none
  | fuel + 1, r, cs =>
    match cs with
    | '*' :: rest => parsePostOps fuel (Regex.star r) rest
    | '+' :: rest => parsePostOps fuel (Regex.cat r (Regex.star r)) rest
    | '?' :: rest => parsePostOps fuel (Regex.alt Regex.eps r) rest
    | _ => Option.some (r, cs)

mutual

/-- An atom: a group, a bracket class, `.`, an escape, or a literal. -/
def parseAtomR : Nat → List Char → Option (Regex × List Char)
  | 0, _ => Option.none
  | fuel + 1, cs =>
    match cs with
    | '(' :: rest =>
        match parseAltR fuel rest with
        | Option.some (r, ')' :: rest2) => Option.some (r, rest2)
        | _ => Option.none
    | '[' :: rest =>
        let nr : Bool × List Char :=
          match rest with
          | '^' :: r2 => (true, r2)
          | _ => (false, rest)
        match parseClsItems (nr.2.length + 1) nr.2 [] with
        | Option.some (items, rest2) =>
            Option.some (Regex.cls (classPred nr.1 items), rest2)
        | Option.none => Option.none
    | '.' :: rest => Option.some (Regex.cls (fun c => !decide (c = '\n')), rest)
    | '\\' :: c :: rest => Option.some (Regex.cls (escPred c), rest)
    | c :: rest =>
        if c = '|' || c = ')' || c = '*' || c = '+' || c = '?' ||
           c = '(' || c = '[' || c = '\\' || c = '^' || c = '$'
        then Option.none
        else Option.some (Regex.cls (fun x => decide (x = c)), rest)
    | [] => Option.none

/-- An atom followed by its repetition operators. -/
def parseRepR : Nat → List Char → Option (Regex × List Char)
  | 0, _ => Option.none
  | fuel + 1, cs =>
    match parseAtomR fuel cs with
    | Option.some (r, rest) => parsePostOps (rest.length + 1) r rest
    | Option.none => Option.none

/-- A (possibly empty) concatenation of repetitions. -/
def parseSeqR : Nat → List Char → Option (Regex × List Char)
  | 0, _ => Option.none
  | fuel + 1, cs =>
    match cs with
    | [] => Option.some (Regex.eps, [])
    | ')' :: _ => Option.some (Regex.eps, cs)
    | '|' :: _ => Option.some (Regex.eps, cs)
    | _ =>
      match parseRepR fuel cs with
      | Option.some (r1, rest) =>
          match parseSeqR fuel rest with
          | Option.some (r2, rest2) => Option.some (Regex.cat r1 r2, rest2)
          | Option.none => Option.none
      | Option.none => Option.none

/-- Alternation: sequences separated by `|`. -/
def parseAltR : Nat → List Char → Option (Regex × List Char)
  | 0, _ => Option.none
  | fuel + 1, cs =>
    match parseSeqR fuel cs with
    | Option.some (r1, '|' :: rest2) =>
        match parseAltR fuel rest2 with
        | Option.some (r2, rest3) => Option.some (Regex.alt r1 r2, rest3)
        | Option.none => Option.none
    | other => other

end

/-- Model of `re` pattern compilation for the syntax fragment the model
supports (literals, `.`, bracket classes with ranges and negation,
escapes, groups, `|`, `*`, `+`, `?`).  `Option.none` stands for a pattern
outside the fragment (or an invalid one, which the builtin rejects with
`re.error`). -/
def parseRe (pat : String) : Option Regex :=
  match parseAltR (4 * pat.length + 16) pat.data with
  | Option.some (r, []) => Option.some r
  | _ => Option.none

/-- Model of `re.fullmatch(pat, s) is not None`: the compiled pattern must
match the ENTIRE subject string.  `Option.none` models `re.error`. -/
def reFullmatch (pat s : String) : Option Bool :=
  match parseRe pat with
  | Option.some r => Option.some (rmatch r s.data)
  | Option.none => Option.none

/-- Model of builtin `str(data)`.  `str()` succeeds on every modelled
value; the rendering of non-string values is loose (the claims only
exercise string inputs). -/
def pyStr (data : Value) : String :=
  match data with
  | Value.str s => s
  | Value.none => "None"
  | Value.int n => toString n
  | Value.float q => toString q
  | Value.list _ => "<list>"
  | Value.dict _ => "<dict>"

/-- `IOMetaTypeString._format`: `str(data)`; the surrounding try/except
never fires because `str()` succeeds on every modelled value. -/
def strFormat (data : Value) : Except PyErr String :=
  Except.ok (pyStr data)

/-- `IOMetaTypeString._check`: `None` passes, a string condition is a
regex that the whole string must match (`re.fullmatch`), any other
condition raises `IO-META-STR-IRR`.  An invalid/unsupported pattern
models `re.error` escaping from `re.fullmatch`. -/
def strCheck (meta_data : String) (condition : Value) : Except PyErr String :=
  match condition with
  | Value.none => Except.ok meta_data
  | Value.str pat =>
      match reFullmatch pat meta_data with
      | Option.none => Except.error ⟨ErrKind.reError, "invalid or unsupported pattern"⟩
      | Option.some true => Except.ok meta_data
      | Option.some false => Except.error (raiseStack "IO-META-STR-NM")
  | _ => Except.error (raiseStack "IO-META-STR-IRR")

/-- `IOType` (`iotypemodel/iotype_model.py`): the six schema attributes.
Attribute values are arbitrary Python values, as in the source. -/
structure IOType where
  meta : Value
  id : Value
  name : Value
  doc : Value
  condition : Value
  version : Value

/-- `IOType.to_dict` (also exposed as the `schema` property): the six
attributes, in source order. -/
def IOType.schema (t : IOType) : List (String × Value) :=
  [("meta", t.meta), ("id", t.id), ("name", t.name),
   ("doc", t.doc), ("condition", t.condition), ("version", t.version)]

/-- `IOType.__call__`: dispatch on `meta` through `_accept_meta_types`,
run that meta type's `_format` then `_check` (the `IOMetaTypeModel`
constructor), and return the validated data.  A `meta` outside the
accepted table is a `KeyError` from the table lookup. -/
def IOType.call (t : IOType) (data : Value) : Except PyErr Value :=
  match t.meta with
  | Value.str "string" => do
      let m ← strFormat data
      let r ← strCheck m t.condition
      return Value.str r
  | Value.str "number" => do
      let q ← numberFormat data
      let r ← numberCheck q t.condition
      return Value.float r
  | Value.str "numarray" => do
      let l ← numarrayFormat data
      let r ← numarrayCheck l t.condition
      return Value.list (r.map Value.float)
  | _ => Except.error ⟨ErrKind.keyError, "meta type not accepted"⟩

/-- `Parameter` (`parameter.py`): name, IOType, description, default
value, optionality.  The `optional` flag is only ever used for its
truthiness, so it is modelled as a `Bool`. -/
structure Parameter where
  name : Value
  iotype : IOType
  desc : Value
  default : Value
  optional : Bool

/-- The `required_properties` list of `IOTypeStack.__setitem__`. -/
def requiredProperties : List String :=
  ["id", "meta", "name", "doc", "version", "condition"]

/-- `IOType(**filtered_data)`: construct an `IOType` from a record's
fields, with the constructor's defaults for absent keyword arguments
(unreachable in the success path of `__setitem__`, where all six are
present). -/
def mkIOType (io_data : List (String × Value)) : IOType :=
  ⟨(List.lookup "meta" io_data).getD (Value.str "string"),
   (List.lookup "id" io_data).getD (Value.str ""),
   (List.lookup "name" io_data).getD (Value.str ""),
   (List.lookup "doc" io_data).getD (Value.str ""),
   (List.lookup "condition" io_data).getD Value.none,
   (List.lookup "version" io_data).getD (Value.str "")⟩

/-- Python dict assignment `d[k] = v` on an insertion-ordered association
list: update in place when the key exists, else append. -/
def dictSet {α : Type} (d : List (String × α)) (k : String) (v : α) :
    List (String × α) :=
  match d with
  | [] => [(k, v)]
  | (k2, v2) :: rest =>
      if k2 = k then (k, v) :: rest else (k2, v2) :: dictSet rest k v

/-- `IOTypeStack.__setitem__`: keep only the required properties present
in the record; if any required property is missing raise
`SyntaxError('Line:<io_id> is irregular')`, otherwise store the
constructed `IOType` under `io_id`. -/
def setItemIO (iotypes : List (String × IOType)) (io_id : String)
    (io_data : List (String × Value)) : Except PyErr (List (String × IOType)) :=
  let present := requiredProperties.filter (fun k => (List.lookup k io_data).isSome)
  if present.length ≠ requiredProperties.length then
    Except.error ⟨ErrKind.syntaxError, "Line:" ++ io_id ++ " is irregular"⟩
  else
    Except.ok (dictSet iotypes io_id (mkIOType io_data))

/-- `IOTypeStack.to_dict` (no key filter): map each stored id to its
schema.  `to_json` serialises exactly this mapping and `_load_json`
parses it back; for string-keyed records of serialisable values that
round trip is the identity on this representation, so the JSON step is
modelled as the identity. -/
def toDictStack (iotypes : List (String × IOType)) :
    List (String × List (String × Value)) :=
  iotypes.map (fun kv => (kv.1, kv.2.schema))

/-- `IOTypeStack._load_dict` into a fresh registry (`__init__` starts
from an empty mapping): `self[io_id] = io_data` for each record in
order. -/
def loadDictStack (records : List (String × List (String × Value))) :
    Except PyErr (List (String × IOType)) :=
  records.foldlM (fun acc kv => setItemIO acc kv.1 kv.2) []

/-- `RemoteAlgorithm._build_params`: walk the declared inputs in order; a
missing optional argument takes its default verbatim, a missing required
one raises `RuntimeError('<name> is required.')`, and a supplied one is
validated by the parameter's IOType. -/
def buildParams (inputs : List (String × Parameter))
    (kwargs : List (String × Value)) : Except PyErr (List (String × Value)) :=
  match inputs with
  | [] => Except.ok []
  | (arg_name, arg_regular) :: rest =>
    match List.lookup arg_name kwargs with
    | Option.none =>
        if arg_regular.optional then do
          let ps ← buildParams rest kwargs
          return (arg_name, arg_regular.default) :: ps
        else Except.error ⟨ErrKind.runtimeError, arg_name ++ " is required."⟩
    | Option.some v => do
        let fv ← arg_regular.iotype.call v
        let ps ← buildParams rest kwargs
        return (arg_name, fv) :: ps

/-- One operation issued to the transport (the client session). -/
inductive TransportOp where
  | submit (entry : String) (params : List (String × Value))
  | getTaskReturn (task_id : Nat)
  | cancelTask (task_id : Nat)

/-- How one dispatched task ends: the poll loop reaches a terminal
response carrying `success` and `output`, or the caller interrupts the
wait. -/
inductive ClientRun where
  | finish (success : Bool) (output : Value)
  | interrupt

/-- Transport behaviour for one call: the task id that `_submit_task`
returns and how the task ends. -/
structure HttpClient where
  submitId : Nat
  run : ClientRun

/-- Outcome of a proxy call: a returned value or a raised exception. -/
inductive CallResult where
  | ok (output : Value)
  | raised (e : PyErr)

/-- `RemoteAlgorithm._cancel`: a no-op when no task id is recorded;
otherwise issue the cancellation and clear the recorded task id (the id
is cleared in both the cancelled and the failed-to-cancel branches). -/
def cancelStep (task_id : Option Nat) : Option Nat × List TransportOp :=
  match task_id with
  | Option.none => (Option.none, [])
  | Option.some t => (Option.none, [TransportOp.cancelTask t])

/-- `RemoteAlgorithm.run_http` as a function of the recorded task id
(`self._task_id`) and the transport behaviour.  Returns the call outcome,
the new recorded task id and the transport operations issued, in order.
The poll loop is collapsed to its terminal `_get_task_return` (the number
of intermediate polls is irrelevant to the claims); a server-reported
failure raises `RuntimeError(response.get('output'))`. -/
def run_http (entry : String) (inputs : List (String × Parameter))
    (kwargs : List (String × Value)) (client : HttpClient)
    (task_id : Option Nat) : CallResult × Option Nat × List TransportOp :=
  match buildParams inputs kwargs with
  | Except.error e => (CallResult.raised e, task_id, [])
  | Except.ok params =>
    let tid := client.submitId
    match client.run with
    | ClientRun.interrupt =>
        let c := cancelStep (Option.some tid)
        (CallResult.raised ⟨ErrKind.keyboardInterrupt, ""⟩, c.1,
          TransportOp.submit entry params :: c.2)
    | ClientRun.finish true out =>
        (CallResult.ok out, Option.some tid,
          [TransportOp.submit entry params, TransportOp.getTaskReturn tid])
    | ClientRun.finish false out =>
        (CallResult.raised ⟨ErrKind.runtimeError, pyStr out⟩, Option.some tid,
          [TransportOp.submit entry params, TransportOp.getTaskReturn tid])

/-- The built-in `number` IOType (`meta_types` in `parameter.py`). -/
def numberIOType : IOType :=
  ⟨Value.str "number", Value.str "number", Value.str "number",
   Value.str "", Value.none, Value.str ""⟩

/-- Inputs of the `add` scenario: `a` (number, required) and `b` (number,
optional, default `1`). -/
def addInputs : List (String × Parameter) :=
  [("a", ⟨Value.str "a", numberIOType, Value.str "", Value.none, false⟩),
   ("b", ⟨Value.str "b", numberIOType, Value.str "", Value.int 1, true⟩)]

/-- Inputs with two required number parameters `a` and `b`. -/
def abReqInputs : List (String × Parameter) :=
  [("a", ⟨Value.str "a", numberIOType, Value.str "", Value.none, false⟩),
   ("b", ⟨Value.str "b", numberIOType, Value.str "", Value.none, false⟩)]

/-- The digit class `[0-9]`, as compiled by the pattern reader. -/
def cls09 : Regex := Regex.cls (classPred false [('0', '9')])

/-- The compiled form of the pattern `[0-9]+`. -/
def rex09 : Regex := Regex.cat (Regex.cat cls09 (Regex.star cls09)) Regex.eps

/-- Numeric view of a `Value`: its rational content when it is an `int`
or a `float`. -/
def numValQ : Value → Option ℚ
  | Value.int n => Option.some (n : ℚ)
  | Value.float q => Option.some q
  | _ => Option.none

/-- A registry record carrying all six required fields. -/
def recSixOnly : List (String × Value) :=
  [("id", Value.str "i"), ("meta", Value.str "string"), ("name", Value.str "n"),
   ("doc", Value.str "d"), ("version", Value.str "v"), ("condition", Value.none)]

/-- A registry record carrying all six required fields plus an extra one. -/
def recWithExtra : List (String × Value) :=
  recSixOnly ++ [("extra", Value.int 1)]

theorem cat_inv {r1 r2 : Regex} {l : List Char}
    (h : RMatch (Regex.cat r1 r2) l) :
    ∃ s1 s2, l = s1 ++ s2 ∧ RMatch r1 s1 ∧ RMatch r2 s2 := by
  cases h with
  | cat h1 h2 => exact ⟨_, _, rfl, h1, h2⟩

theorem nullable_iff (r : Regex) : nullable r = true ↔ RMatch r [] := by
  induction r with
  | emp =>
      simp only [nullable, Bool.false_eq_true, false_iff]
      intro h; cases h
  | eps =>
      simp only [nullable, true_iff]
      exact RMatch.eps
  | cls p =>
      simp only [nullable, Bool.false_eq_true, false_iff]
      intro h; cases h
  | alt r1 r2 ih1 ih2 =>
      simp only [nullable, Bool.or_eq_true, ih1, ih2]
      constructor
      · rintro (h | h)
        · exact RMatch.altL h
        · exact RMatch.altR h
      · intro h
        cases h with
        | altL h => exact Or.inl h
        | altR h => exact Or.inr h
  | cat r1 r2 ih1 ih2 =>
      simp only [nullable, Bool.and_eq_true, ih1, ih2]
      constructor
      · rintro ⟨h1, h2⟩
        simpa using RMatch.cat h1 h2
      · intro h
        obtain ⟨s1, s2, hl, h1, h2⟩ := cat_inv h
        obtain ⟨e1, e2⟩ := List.append_eq_nil.mp hl.symm
        subst e1; subst e2
        exact ⟨h1, h2⟩
  | star r1 ih =>
      simp only [nullable, true_iff]
      exact RMatch.starNil

theorem deriv_sound {r : Regex} {c : Char} {s : List Char}
    (h : RMatch (deriv r c) s) : RMatch r (c :: s) := by
  induction r generalizing s with
  | emp => simp only [deriv] at h; cases h
  | eps => simp only [deriv] at h; cases h
  | cls p =>
      simp only [deriv] at h
      by_cases hp : p c = true
      · rw [if_pos hp] at h
        cases h
        exact RMatch.cls hp
      · rw [if_neg hp] at h
        cases h
  | alt r1 r2 ih1 ih2 =>
      simp only [deriv] at h
      cases h with
      | altL h => exact RMatch.altL (ih1 h)
      | altR h => exact RMatch.altR (ih2 h)
  | cat r1 r2 ih1 ih2 =>
      simp only [deriv] at h
      by_cases hn : nullable r1 = true
      · rw [if_pos hn] at h
        cases h with
        | altL h =>
            cases h with
            | @cat _ _ s1 s2 h1 h2 => simpa using RMatch.cat (ih1 h1) h2
        | altR h =>
            have h0 : RMatch r1 [] := (nullable_iff r1).mp hn
            simpa using RMatch.cat h0 (ih2 h)
      · rw [if_neg hn] at h
        cases h with
        | @cat _ _ s1 s2 h1 h2 => simpa using RMatch.cat (ih1 h1) h2
  | star r1 ih =>
      simp only [deriv] at h
      cases h with
      | @cat _ _ s1 s2 h1 h2 => simpa using RMatch.starCat (ih h1) h2

theorem star_inv_aux {rr : Regex} {l : List Char} (h : RMatch rr l) :
    ∀ {r : Regex} {c : Char} {s : List Char}, rr = Regex.star r → l = c :: s →
    ∃ s1 s2, s = s1 ++ s2 ∧ RMatch r (c :: s1) ∧ RMatch (Regex.star r) s2 := by
  induction h with
  | eps => intro r c s hr hl; cases hr
  | cls hp => intro r c s hr hl; cases hr
  | altL h ih => intro r c s hr hl; cases hr
  | altR h ih => intro r c s hr hl; cases hr
  | cat h1 h2 ih1 ih2 => intro r c s hr hl; cases hr
  | starNil => intro r c s hr hl; cases hl
  | @starCat r1 s1 s2 h1 h2 ih1 ih2 =>
      intro r c s hr hl
      injection hr with hreq
      subst hreq
      cases s1 with
      | nil =>
          simp only [List.nil_append] at hl
          exact ih2 rfl hl
      | cons a t =>
          simp only [List.cons_append] at hl
          injection hl with hc ht
          subst hc
          exact ⟨t, s2, ht.symm, h1, h2⟩

theorem star_cons_inv {r : Regex} {c : Char} {s : List Char}
    (h : RMatch (Regex.star r) (c :: s)) :
    ∃ s1 s2, s = s1 ++ s2 ∧ RMatch r (c :: s1) ∧ RMatch (Regex.star r) s2 :=
  star_inv_aux h rfl rfl

theorem deriv_complete {r : Regex} {c : Char} {s : List Char}
    (h : RMatch r (c :: s)) : RMatch (deriv r c) s := by
  induction r generalizing s with
  | emp => cases h
  | eps => cases h
  | cls p =>
      cases h with
      | cls hp =>
          simp only [deriv, if_pos hp]
          exact RMatch.eps
  | alt r1 r2 ih1 ih2 =>
      simp only [deriv]
      cases h with
      | altL h => exact RMatch.altL (ih1 h)
      | altR h => exact RMatch.altR (ih2 h)
  | cat r1 r2 ih1 ih2 =>
      obtain ⟨s1, s2, heq, h1, h2⟩ := cat_inv h
      cases s1 with
      | nil =>
          simp only [List.nil_append] at heq
          subst heq
          have hn : nullable r1 = true := (nullable_iff r1).mpr h1
          simp only [deriv, if_pos hn]
          exact RMatch.altR (ih2 h2)
      | cons a t =>
          simp only [List.cons_append] at heq
          injection heq with hc ht
          subst hc; subst ht
          have hcat : RMatch (Regex.cat (deriv r1 c) r2) (t ++ s2) :=
            RMatch.cat (ih1 h1) h2
          by_cases hn : nullable r1 = true
          · simp only [deriv, if_pos hn]
            exact RMatch.altL hcat
          · simp only [deriv, if_neg hn]
            exact hcat
  | star r1 ih =>
      obtain ⟨s1, s2, hs, h1, h2⟩ := star_cons_inv h
      subst hs
      simp only [deriv]
      exact RMatch.cat (ih h1) h2

theorem rmatch_iff (r : Regex) (s : List Char) : rmatch r s = true ↔ RMatch r s := by
  induction s generalizing r with
  | nil => simpa [rmatch] using nullable_iff r
  | cons c t ih =>
      unfold rmatch
      simp only [List.foldl_cons]
      constructor
      · intro h
        exact deriv_sound ((ih (deriv r c)).mp h)
      · intro h
        exact (ih (deriv r c)).mpr (deriv_complete h)

theorem except_bind_ok {ε α β : Type} (a : α) (f : α → Except ε β) :
    ((Except.ok a : Except ε α) >>= f) = f a := rfl

theorem except_bind_err {ε α β : Type} (e : ε) (f : α → Except ε β) :
    ((Except.error e : Except ε α) >>= f) = Except.error e := rfl

theorem numValQ_pyFloat {a : Value} {x : ℚ} (h : numValQ a = Option.some x) :
    pyFloat a = Except.ok x := by
  cases a <;> simp_all [numValQ, pyFloat]

theorem numValQ_isNone {a : Value} {x : ℚ} (h : numValQ a = Option.some x) :
    a.isNone = false := by
  cases a <;> simp_all [numValQ, Value.isNone]

theorem numValQ_pyGe {a b : Value} {x y : ℚ} (ha : numValQ a = Option.some x)
    (hb : numValQ b = Option.some y) : pyGe a b = Except.ok (decide (y ≤ x)) := by
  cases a <;> cases b <;>
    simp only [numValQ, Option.some.injEq, reduceCtorEq] at ha hb <;>
    subst ha <;> subst hb <;>
    first
      | rfl
      | (simp only [pyGe, Except.ok.injEq]
         exact decide_eq_decide.mpr (by constructor <;> intro h <;> exact_mod_cast h))

theorem numberCheck_dict_num {v x y : ℚ} {a b : Value}
    (ha : numValQ a = Option.some x) (hb : numValQ b = Option.some y) :
    numberCheck v (Value.dict [("min", a), ("max", b)]) =
      (if y ≤ x then Except.error (raiseStack "IO-META-NUM-MINMAX")
       else if v < x then Except.error (raiseStack "IO-META-NUM-MIN")
       else if y < v then Except.error (raiseStack "IO-META-NUM-MAX")
       else Except.ok v) := by
  have hga := numValQ_pyGe ha hb
  have hfa := numValQ_pyFloat ha
  have hfb := numValQ_pyFloat hb
  have hna := numValQ_isNone ha
  have hnb := numValQ_isNone hb
  have hmn : pyDictGet [("min", a), ("max", b)] "min" = a := rfl
  have hmx : pyDictGet [("min", a), ("max", b)] "max" = b := rfl
  simp only [numberCheck, hmn, hmx, hna, hnb, Bool.not_false, Bool.and_self,
    if_true, hga, except_bind_ok, hfa, hfb]
  by_cases h1 : y ≤ x
  · simp only [h1, decide_True, if_true, if_pos]
    rfl
  · simp only [h1, decide_False, if_false, if_neg, not_false_iff]
    by_cases h2 : v < x
    · simp only [h2, decide_True, if_true, if_pos]
      rfl
    · simp only [h2, decide_False, if_false, if_neg, not_false_iff]
      by_cases h3 : y < v
      · simp only [gt_iff_lt, h3, decide_True, if_true, if_pos]
        rfl
      · simp only [gt_iff_lt, h3, decide_False, if_false, if_neg, not_false_iff]
        rfl

/-- C1: for every numeric input value and a dict condition with numeric
bounds `min = x`, `max = y`: when `x < y` validation succeeds with the
value iff `x ≤ v ∧ v ≤ y` (bounds inclusive); an absent condition or a
dict providing neither bound always succeeds; and `x ≥ y` always raises
the `IO-META-NUM-MINMAX` condition-format error, regardless of the
value. -/
theorem claim_C1_number_check (v x y : ℚ) (a b : Value)
    (ha : numValQ a = Option.some x) (hb : numValQ b = Option.some y) :
    (x < y →
      (numberCheck v (Value.dict [("min", a), ("max", b)]) = Except.ok v ↔
        x ≤ v ∧ v ≤ y)) ∧
    (x ≥ y →
      numberCheck v (Value.dict [("min", a), ("max", b)]) =
        Except.error (raiseStack "IO-META-NUM-MINMAX")) ∧
    numberCheck v Value.none = Except.ok v ∧
    (∀ d : List (String × Value), pyDictGet d "min" = Value.none →
      pyDictGet d "max" = Value.none →
      numberCheck v (Value.dict d) = Except.ok v) := by
  refine ⟨?_, ?_, rfl, ?_⟩
  · intro hxy
    rw [numberCheck_dict_num ha hb, if_neg (not_le.mpr hxy)]
    constructor
    · intro h
      by_cases h2 : v < x
      · rw [if_pos h2] at h
        exact Except.noConfusion h
      · rw [if_neg h2] at h
        by_cases h3 : y < v
        · rw [if_pos h3] at h
          exact Except.noConfusion h
        · exact ⟨le_of_not_lt h2, le_of_not_lt h3⟩
    · rintro ⟨hl, hr⟩
      rw [if_neg (not_lt.mpr hl), if_neg (not_lt.mpr hr)]
  · intro hxy
    rw [numberCheck_dict_num ha hb, if_pos hxy]
  · intro d hmn hmx
    simp only [numberCheck, hmn, hmx]
    rfl

theorem claim_C1_number_check_witness :
    numValQ (Value.int 1) = Option.some 1 ∧
    (numberCheck 2 (Value.dict [("min", Value.int 1), ("max", Value.int 3)]) =
        Except.ok 2 ↔ (1 : ℚ) ≤ 2 ∧ (2 : ℚ) ≤ 3) :=
  ⟨by norm_num [numValQ],
   (claim_C1_number_check 2 1 3 (Value.int 1) (Value.int 3)
     (by norm_num [numValQ]) (by norm_num [numValQ])).1 (by norm_num)⟩

/-- C2: for a string input and a string (regex) condition that compiles,
string validation succeeds with the string iff the ENTIRE string is in
the pattern's language; on a non-full match it raises the
`IO-META-STR-NM` error. -/
theorem claim_C2_string_fullmatch (s pat : String) (r : Regex)
    (hp : parseRe pat = Option.some r) :
    (strCheck s (Value.str pat) = Except.ok s ↔ RMatch r s.data) ∧
    (¬ RMatch r s.data →
      strCheck s (Value.str pat) = Except.error (raiseStack "IO-META-STR-NM")) := by
  have hfm : reFullmatch pat s = Option.some (rmatch r s.data) := by
    simp [reFullmatch, hp]
  by_cases hm : rmatch r s.data = true
  · have hok : strCheck s (Value.str pat) = Except.ok s := by
      simp [strCheck, hfm, hm]
    exact ⟨⟨fun _ => (rmatch_iff r s.data).mp hm, fun _ => hok⟩,
      fun hnm => absurd ((rmatch_iff r s.data).mp hm) hnm⟩
  · have hm' : rmatch r s.data = false := by simpa using hm
    have herr : strCheck s (Value.str pat) =
        Except.error (raiseStack "IO-META-STR-NM") := by
      simp [strCheck, hfm, hm']
    refine ⟨⟨fun h => ?_, fun h => absurd ((rmatch_iff r s.data).mpr h) hm⟩,
      fun _ => herr⟩
    rw [herr] at h
    exact Except.noConfusion h

theorem claim_C2_string_fullmatch_witness :
    parseRe "[0-9]+" = Option.some rex09 ∧
    strCheck "123" (Value.str "[0-9]+") = Except.ok "123" ∧
    strCheck "12a" (Value.str "[0-9]+") =
      Except.error (raiseStack "IO-META-STR-NM") ∧
    RMatch rex09 ['1', '2'] ∧ ['1', '2'] ++ ['a'] = ("12a").data :=
  ⟨rfl,
   (claim_C2_string_fullmatch "123" "[0-9]+" rex09 rfl).1.mpr
     ((rmatch_iff rex09 ("123").data).mp (by decide)),
   (claim_C2_string_fullmatch "12a" "[0-9]+" rex09 rfl).2
     (fun h => absurd ((rmatch_iff rex09 ("12a").data).mpr h) (by decide)),
   (rmatch_iff rex09 ['1', '2']).mp (by decide),
   rfl⟩

/-- C3: a number array whose elements all coerce to float validates (with
an absent condition) to the order-preserving list of coerced floats, and
any non-absent condition always raises `IO-META-NUMARR-IRR`, whatever its
shape and whatever the array. -/
theorem claim_C3_numarray_condition (vs : List Value) (qs : List ℚ)
    (h : vs.mapM pyFloat = Except.ok qs) :
    numarrayFormat (Value.list vs) = Except.ok qs ∧
    numarrayCheck qs Value.none = Except.ok qs ∧
    (∀ c : Value, c ≠ Value.none →
      numarrayCheck qs c = Except.error (raiseStack "IO-META-NUMARR-IRR")) := by
  refine ⟨?_, rfl, ?_⟩
  · have h0 : numarrayFormat (Value.list vs) =
        match vs.mapM pyFloat with
        | Except.ok l => Except.ok l
        | Except.error _ => Except.error (raiseStack "IO-META-NUMARR") := rfl
    rw [h0, h]
  · intro c hc
    cases c <;> simp_all [numarrayCheck]

theorem claim_C3_numarray_condition_witness :
    List.mapM pyFloat [Value.float 1, Value.float 2] = Except.ok [(1 : ℚ), 2] ∧
    numarrayFormat (Value.list [Value.float 1, Value.float 2]) =
      Except.ok [(1 : ℚ), 2] ∧
    numarrayCheck [(1 : ℚ), 2] (Value.dict []) =
      Except.error (raiseStack "IO-META-NUMARR-IRR") :=
  ⟨rfl,
   (claim_C3_numarray_condition [Value.float 1, Value.float 2] [(1 : ℚ), 2] rfl).1,
   (claim_C3_numarray_condition [Value.float 1, Value.float 2] [(1 : ℚ), 2] rfl).2.2
     (Value.dict []) (by simp)⟩

theorem mapM_loop_map {α β γ : Type} {ε : Type} (g : α → β)
    (f : β → Except ε γ) (l : List α) (acc : List γ) :
    List.mapM.loop f (l.map g) acc = List.mapM.loop (fun a => f (g a)) l acc := by
  induction l generalizing acc with
  | nil => rfl
  | cons a t ih =>
      simp only [List.map_cons, List.mapM.loop]
      cases f (g a) with
      | error e => rfl
      | ok y =>
          rw [except_bind_ok, except_bind_ok]
          exact ih _

theorem mapM_map_except {α β γ : Type} {ε : Type} (g : α → β)
    (f : β → Except ε γ) (l : List α) :
    (l.map g).mapM f = l.mapM (fun a => f (g a)) :=
  mapM_loop_map g f l []

/-- C4: error-stack lookup always yields a raised exception.  A
registered id yields its registered kind with message `[<id>] <info>`; an
unregistered id yields `RuntimeError` with the fixed message
`[ERR-UNKNOWN] Unknown error` — the total function `ErrorStack.getitem`
models the raised exception, so a missing key can never surface as a
missing-key failure and no branch returns a non-raising value. -/
theorem claim_C4_error_stack_lookup (st : ErrorStack) (errid : String) :
    (∀ e : ErrEntry, List.lookup errid st.errs = Option.some e →
      ErrorStack.getitem st errid = (e.type, "[" ++ errid ++ "] " ++ e.info)) ∧
    (List.lookup errid st.errs = Option.none →
      ErrorStack.getitem st errid =
        (ErrKind.runtimeError, "[ERR-UNKNOWN] Unknown error")) := by
  constructor
  · intro e he
    simp [ErrorStack.getitem, he]
  · intro he
    simp only [ErrorStack.getitem, he]
    rfl

theorem claim_C4_error_stack_lookup_witness :
    ErrorStack.getitem error_stack "IO-META-NUM" =
      (ErrKind.ioTypeMetaError, "[IO-META-NUM] Not float data") ∧
    ErrorStack.getitem error_stack "NO-SUCH-ID" =
      (ErrKind.runtimeError, "[ERR-UNKNOWN] Unknown error") :=
  ⟨(claim_C4_error_stack_lookup error_stack "IO-META-NUM").1
     ⟨"Not float data", ErrKind.ioTypeMetaError⟩ rfl,
   (claim_C4_error_stack_lookup error_stack "NO-SUCH-ID").2 rfl⟩

/-- C10: number-array formatting of a plain string iterates the string as
its characters, coercing each character (as a one-character string)
through `float`: it succeeds exactly when the per-character coercions all
succeed, producing one float per character in order — "123" yields
[1.0, 2.0, 3.0] and a plain string is never rejected as a non-array
value (a non-numeric character fails element coercion, `IO-META-NUMARR`,
instead). -/
theorem claim_C10_numarray_string (s : String) :
    (∀ qs : List ℚ,
      numarrayFormat (Value.str s) = Except.ok qs ↔
        s.data.mapM (fun c => pyFloat (Value.str (String.singleton c))) =
          Except.ok qs) ∧
    numarrayFormat (Value.str "123") = Except.ok [1, 2, 3] ∧
    numarrayFormat (Value.str "12a") =
      Except.error (raiseStack "IO-META-NUMARR") := by
  refine ⟨?_, ?_, rfl⟩
  · intro qs
    have h0 : numarrayFormat (Value.str s) =
        match (s.data.map (fun c => Value.str (String.singleton c))).mapM pyFloat with
        | Except.ok l => Except.ok l
        | Except.error _ => Except.error (raiseStack "IO-META-NUMARR") := rfl
    have hform : numarrayFormat (Value.str s) =
        match s.data.mapM (fun c => pyFloat (Value.str (String.singleton c))) with
        | Except.ok l => Except.ok l
        | Except.error _ => Except.error (raiseStack "IO-META-NUMARR") := by
      rw [h0, mapM_map_except]
    rw [hform]
    cases hinner : s.data.mapM (fun c => pyFloat (Value.str (String.singleton c))) with
    | ok l => simp
    | error e => simp
  · have h : numarrayFormat (Value.str "123") =
        Except.ok [1 * ((1 : ℕ) : ℚ), 1 * ((2 : ℕ) : ℚ), 1 * ((3 : ℕ) : ℚ)] := rfl
    rw [h]
    norm_num

theorem buildParams_missing_required (inputs : List (String × Parameter))
    (kwargs : List (String × Value))
    (hmiss : ∃ n p, (n, p) ∈ inputs ∧ p.optional = false ∧
      List.lookup n kwargs = Option.none) :
    ∃ e, buildParams inputs kwargs = Except.error e := by
  induction inputs with
  | nil =>
      obtain ⟨n, p, hmem, _, _⟩ := hmiss
      cases hmem
  | cons hd tl ih =>
      obtain ⟨hdn, hdp⟩ := hd
      obtain ⟨n, p, hmem, hopt, hlk⟩ := hmiss
      cases hlk2 : List.lookup hdn kwargs with
      | none =>
          cases hopt2 : hdp.optional with
          | false =>
              exact ⟨⟨ErrKind.runtimeError, hdn ++ " is required."⟩,
                by simp [buildParams, hlk2, hopt2]⟩
          | true =>
              rcases List.mem_cons.mp hmem with heq | hmem2
              · injection heq with h1 h2
                subst h1; subst h2
                rw [hopt] at hopt2
                exact Bool.noConfusion hopt2
              · obtain ⟨e, he⟩ := ih ⟨n, p, hmem2, hopt, hlk⟩
                exact ⟨e, by simp [buildParams, hlk2, hopt2, he]⟩
      | some v =>
          rcases List.mem_cons.mp hmem with heq | hmem2
          · injection heq with h1 h2
            subst h1; subst h2
            rw [hlk] at hlk2
            exact Option.noConfusion hlk2
          · obtain ⟨e, he⟩ := ih ⟨n, p, hmem2, hopt, hlk⟩
            cases hcall : hdp.iotype.call v with
            | error e2 =>
                exact ⟨e2, by simp [buildParams, hlk2, hcall, except_bind_err]⟩
            | ok fv =>
                exact ⟨e, by simp [buildParams, hlk2, hcall, he, except_bind_ok,
                  except_bind_err]⟩

theorem buildParams_first_missing (inputs : List (String × Parameter))
    (kwargs : List (String × Value))
    (hval : ∀ n p, (n, p) ∈ inputs → ∀ v, List.lookup n kwargs = Option.some v →
      ∃ fv, p.iotype.call v = Except.ok fv)
    (hmiss : ∃ n p, (n, p) ∈ inputs ∧ p.optional = false ∧
      List.lookup n kwargs = Option.none) :
    ∃ n p, (n, p) ∈ inputs ∧ p.optional = false ∧
      List.lookup n kwargs = Option.none ∧
      buildParams inputs kwargs =
        Except.error ⟨ErrKind.runtimeError, n ++ " is required."⟩ := by
  induction inputs with
  | nil =>
      obtain ⟨n, p, hmem, _, _⟩ := hmiss
      cases hmem
  | cons hd tl ih =>
      obtain ⟨hdn, hdp⟩ := hd
      cases hlk2 : List.lookup hdn kwargs with
      | none =>
          cases hopt2 : hdp.optional with
          | false =>
              exact ⟨hdn, hdp, List.mem_cons_self _ _, hopt2, hlk2,
                by simp [buildParams, hlk2, hopt2]⟩
          | true =>
              obtain ⟨n, p, hmem, hopt, hlk⟩ := hmiss
              have hmem2 : (n, p) ∈ tl := by
                rcases List.mem_cons.mp hmem with heq | hmem2
                · injection heq with h1 h2
                  subst h1; subst h2
                  rw [hopt] at hopt2
                  exact Bool.noConfusion hopt2
                · exact hmem2
              obtain ⟨n2, p2, hm2, ho2, hl2, he⟩ :=
                ih (fun n3 p3 hm3 => hval n3 p3 (List.mem_cons_of_mem _ hm3))
                  ⟨n, p, hmem2, hopt, hlk⟩
              exact ⟨n2, p2, List.mem_cons_of_mem _ hm2, ho2, hl2,
                by simp [buildParams, hlk2, hopt2, he]⟩
      | some v =>
          obtain ⟨fv, hfv⟩ := hval hdn hdp (List.mem_cons_self _ _) v hlk2
          obtain ⟨n, p, hmem, hopt, hlk⟩ := hmiss
          have hmem2 : (n, p) ∈ tl := by
            rcases List.mem_cons.mp hmem with heq | hmem2
            · injection heq with h1 h2
              subst h1; subst h2
              rw [hlk] at hlk2
              exact Option.noConfusion hlk2
            · exact hmem2
          obtain ⟨n2, p2, hm2, ho2, hl2, he⟩ :=
            ih (fun n3 p3 hm3 => hval n3 p3 (List.mem_cons_of_mem _ hm3))
              ⟨n, p, hmem2, hopt, hlk⟩
          exact ⟨n2, p2, List.mem_cons_of_mem _ hm2, ho2, hl2,
            by simp [buildParams, hlk2, hfv, he, except_bind_ok, except_bind_err]⟩

/-- C5 is refuted as universally stated: with inputs `a` (number,
required) and `b` (number, required) and the call supplying only a
non-numeric `a`, the required parameter `b` is missing, yet the raised
error is the `IO-META-NUM` meta error from validating `a` — not a
missing-required-argument error naming `b`.  (The transport is still
never contacted.) -/
theorem claim_C5_counterexample :
    ("b", (⟨Value.str "b", numberIOType, Value.str "", Value.none, false⟩ : Parameter))
        ∈ abReqInputs ∧
    List.lookup "b" [("a", Value.str "xx")] = Option.none ∧
    run_http "add" abReqInputs [("a", Value.str "xx")]
        ⟨7, ClientRun.finish true Value.none⟩ Option.none =
      (CallResult.raised ⟨ErrKind.ioTypeMetaError, "[IO-META-NUM] Not float data"⟩,
        Option.none, []) ∧
    "[IO-META-NUM] Not float data" ≠ "b is required." :=
  ⟨List.mem_cons_of_mem _ (List.mem_cons_self _ _), rfl, rfl, by decide⟩

/-- C5 (amended): whenever some required input parameter is unsupplied,
the call raises before any transport operation is issued (empty transport
trace); and if additionally every supplied argument validates, the raised
error is `RuntimeError('<name> is required.')` naming a missing required
parameter. -/
theorem claim_C5_missing_required_amended (entry : String)
    (inputs : List (String × Parameter)) (kwargs : List (String × Value))
    (client : HttpClient) (st : Option Nat)
    (hmiss : ∃ n p, (n, p) ∈ inputs ∧ p.optional = false ∧
      List.lookup n kwargs = Option.none) :
    (∃ e, run_http entry inputs kwargs client st = (CallResult.raised e, st, [])) ∧
    ((∀ n p, (n, p) ∈ inputs → ∀ v, List.lookup n kwargs = Option.some v →
        ∃ fv, p.iotype.call v = Except.ok fv) →
      ∃ n p, (n, p) ∈ inputs ∧ p.optional = false ∧
        List.lookup n kwargs = Option.none ∧
        run_http entry inputs kwargs client st =
          (CallResult.raised ⟨ErrKind.runtimeError, n ++ " is required."⟩, st, [])) := by
  constructor
  · obtain ⟨e, he⟩ := buildParams_missing_required inputs kwargs hmiss
    exact ⟨e, by simp [run_http, he]⟩
  · intro hval
    obtain ⟨n, p, h1, h2, h3, he⟩ := buildParams_first_missing inputs kwargs hval hmiss
    exact ⟨n, p, h1, h2, h3, by simp [run_http, he]⟩

theorem claim_C5_missing_required_amended_witness :
    ∃ n p, (n, p) ∈ abReqInputs ∧ p.optional = false ∧
      List.lookup n ([] : List (String × Value)) = Option.none ∧
      run_http "add" abReqInputs [] ⟨7, ClientRun.finish true Value.none⟩ Option.none =
        (CallResult.raised ⟨ErrKind.runtimeError, n ++ " is required."⟩,
          Option.none, []) :=
  (claim_C5_missing_required_amended "add" abReqInputs []
      ⟨7, ClientRun.finish true Value.none⟩ Option.none
      ⟨"a", ⟨Value.str "a", numberIOType, Value.str "", Value.none, false⟩,
        List.mem_cons_self _ _, rfl, rfl⟩).2
    (fun _ _ _ _ hv => Option.noConfusion hv)

/-- C6: whenever parameter building succeeds, the produced mapping pairs
each declared input, in order, with the IOType-validated value of the
supplied argument, or with the parameter's default value verbatim when an
optional argument was omitted. -/
theorem claim_C6_param_build (inputs : List (String × Parameter))
    (kwargs : List (String × Value)) (ps : List (String × Value))
    (h : buildParams inputs kwargs = Except.ok ps) :
    List.Forall₂ (fun (np : String × Parameter) (pv : String × Value) =>
      pv.1 = np.1 ∧
      (List.lookup np.1 kwargs = Option.none → pv.2 = np.2.default) ∧
      (∀ v, List.lookup np.1 kwargs = Option.some v →
        np.2.iotype.call v = Except.ok pv.2)) inputs ps := by
  induction inputs generalizing ps with
  | nil =>
      simp only [buildParams, Except.ok.injEq] at h
      subst h
      exact List.Forall₂.nil
  | cons hd tl ih =>
      obtain ⟨hdn, hdp⟩ := hd
      simp only [buildParams] at h
      cases hlk : List.lookup hdn kwargs with
      | none =>
          rw [hlk] at h
          cases hopt : hdp.optional with
          | false =>
              rw [hopt] at h
              simp only [Bool.false_eq_true, if_false, reduceCtorEq] at h
          | true =>
              rw [hopt] at h
              simp only [if_true] at h
              cases hrec : buildParams tl kwargs with
              | error e =>
                  rw [hrec, except_bind_err] at h
                  exact Except.noConfusion h
              | ok ps2 =>
                  rw [hrec, except_bind_ok] at h
                  simp only [pure, Except.pure, Except.ok.injEq] at h
                  subst h
                  refine List.Forall₂.cons ⟨rfl, fun _ => rfl, fun v hv => ?_⟩ (ih ps2 hrec)
                  rw [hlk] at hv
                  exact Option.noConfusion hv
      | some v =>
          simp only [hlk] at h
          cases hcall : hdp.iotype.call v with
          | error e =>
              rw [hcall, except_bind_err] at h
              exact Except.noConfusion h
          | ok fv =>
              rw [hcall, except_bind_ok] at h
              cases hrec : buildParams tl kwargs with
              | error e =>
                  rw [hrec, except_bind_err] at h
                  exact Except.noConfusion h
              | ok ps2 =>
                  rw [hrec, except_bind_ok] at h
                  simp only [pure, Except.pure, Except.ok.injEq] at h
                  subst h
                  refine List.Forall₂.cons ⟨rfl, fun hnone => ?_, fun v2 hv2 => ?_⟩
                    (ih ps2 hrec)
                  · rw [hlk] at hnone
                    exact Option.noConfusion hnone
                  · rw [hlk] at hv2
                    injection hv2 with hv2
                    subst hv2
                    exact hcall

theorem claim_C6_param_build_witness :
    buildParams addInputs [("a", Value.int 5)] =
      Except.ok [("a", Value.float 5), ("b", Value.int 1)] ∧
    List.Forall₂ (fun (np : String × Parameter) (pv : String × Value) =>
      pv.1 = np.1 ∧
      (List.lookup np.1 [("a", Value.int 5)] = Option.none → pv.2 = np.2.default) ∧
      (∀ v, List.lookup np.1 [("a", Value.int 5)] = Option.some v →
        np.2.iotype.call v = Except.ok pv.2))
      addInputs [("a", Value.float 5), ("b", Value.int 1)] :=
  ⟨rfl, claim_C6_param_build addInputs [("a", Value.int 5)]
    [("a", Value.float 5), ("b", Value.int 1)] rfl⟩

/-- C7 is refuted: after a successful call (a terminal outcome) the
recorded task id still holds the submitted id 7 instead of being
cleared. -/
theorem claim_C7_counterexample :
    run_http "add" addInputs [("a", Value.int 5)]
        ⟨7, ClientRun.finish true (Value.str "done")⟩ Option.none =
      (CallResult.ok (Value.str "done"), Option.some 7,
        [TransportOp.submit "add" [("a", Value.float 5), ("b", Value.int 1)],
         TransportOp.getTaskReturn 7]) ∧
    (Option.some 7 : Option Nat) ≠ Option.none :=
  ⟨rfl, by simp⟩

/-- C7 (amended): once parameters build successfully, the recorded task
id is cleared only by caller-initiated cancellation (interrupt); after a
successful return or a raised server-reported failure it remains set to
the submitted task id. -/
theorem claim_C7_task_id_amended (entry : String)
    (inputs : List (String × Parameter)) (kwargs : List (String × Value))
    (client : HttpClient) (st : Option Nat) (params : List (String × Value))
    (hbp : buildParams inputs kwargs = Except.ok params) :
    (client.run = ClientRun.interrupt →
      (run_http entry inputs kwargs client st).2.1 = Option.none) ∧
    (∀ b out, client.run = ClientRun.finish b out →
      (run_http entry inputs kwargs client st).2.1 = Option.some client.submitId) := by
  constructor
  · intro hr
    simp [run_http, hbp, hr, cancelStep]
  · intro b out hr
    cases b <;> simp [run_http, hbp, hr]

theorem claim_C7_task_id_amended_witness :
    (run_http "add" addInputs [("a", Value.int 5)]
      ⟨7, ClientRun.interrupt⟩ Option.none).2.1 = Option.none ∧
    (run_http "add" addInputs [("a", Value.int 5)]
      ⟨7, ClientRun.finish false (Value.str "boom")⟩ Option.none).2.1 =
        Option.some 7 :=
  ⟨(claim_C7_task_id_amended "add" addInputs [("a", Value.int 5)]
      ⟨7, ClientRun.interrupt⟩ Option.none
      [("a", Value.float 5), ("b", Value.int 1)] rfl).1 rfl,
   (claim_C7_task_id_amended "add" addInputs [("a", Value.int 5)]
      ⟨7, ClientRun.finish false (Value.str "boom")⟩ Option.none
      [("a", Value.float 5), ("b", Value.int 1)] rfl).2 false (Value.str "boom") rfl⟩

theorem setItemIO_allPresent {iotypes : List (String × IOType)} {io_id : String}
    {io_data : List (String × Value)}
    (hall : ∀ k ∈ requiredProperties, (List.lookup k io_data).isSome = true) :
    setItemIO iotypes io_id io_data =
      Except.ok (dictSet iotypes io_id (mkIOType io_data)) := by
  have hlen : (requiredProperties.filter
      (fun k => (List.lookup k io_data).isSome)).length =
      requiredProperties.length := by
    rw [List.filter_eq_self.mpr hall]
  simp only [ setItemIO]
  rw [if_neg (by rw [hlen]; exact fun hne => hne rfl)]

theorem setItemIO_missing {iotypes : List (String × IOType)} {io_id : String}
    {io_data : List (String × Value)}
    (hmiss : ∃ k ∈ requiredProperties, List.lookup k io_data = Option.none) :
    setItemIO iotypes io_id io_data =
      Except.error ⟨ErrKind.syntaxError, "Line:" ++ io_id ++ " is irregular"⟩ := by
  obtain ⟨k, hk, hnone⟩ := hmiss
  have hlt : (requiredProperties.filter
      (fun k => (List.lookup k io_data).isSome)).length <
      requiredProperties.length :=
    List.length_filter_lt_length_iff_exists.mpr ⟨k, hk, by simp [hnone]⟩
  simp only [ setItemIO]
  rw [if_pos hlt.ne]

/-- C8 is refuted as stated: a record carrying all six required fields
PLUS an extra field does not contain exactly the required fields, yet the
load succeeds (the extra field is silently dropped). -/
theorem claim_C8_counterexample :
    setItemIO [] "T" recWithExtra =
      Except.ok [("T", ⟨Value.str "string", Value.str "i", Value.str "n",
        Value.str "d", Value.none, Value.str "v"⟩)] ∧
    "extra" ∈ recWithExtra.map Prod.fst ∧
    "extra" ∉ requiredProperties :=
  ⟨rfl, by decide, by decide⟩

/-- C8 (amended): loading a record into the registry succeeds iff every
required field (`id, meta, name, doc, version, condition`) is present —
extra fields are dropped rather than rejected — and a record missing a
required field fails with `SyntaxError('Line:<key> is irregular')` naming
the offending record key. -/
theorem claim_C8_required_fields_amended (iotypes : List (String × IOType))
    (io_id : String) (io_data : List (String × Value)) :
    ((∃ st, setItemIO iotypes io_id io_data = Except.ok st) ↔
      ∀ k ∈ requiredProperties, (List.lookup k io_data).isSome = true) ∧
    ((∃ k ∈ requiredProperties, List.lookup k io_data = Option.none) →
      setItemIO iotypes io_id io_data =
        Except.error ⟨ErrKind.syntaxError, "Line:" ++ io_id ++ " is irregular"⟩) := by
  refine ⟨⟨?_, ?_⟩, setItemIO_missing⟩
  · rintro ⟨st, hst⟩
    by_contra hnall
    push_neg at hnall
    obtain ⟨k, hk, hnp⟩ := hnall
    have hnone : List.lookup k io_data = Option.none := by
      cases hcase : List.lookup k io_data with
      | none => rfl
      | some v =>
          rw [hcase] at hnp
          simp at hnp
    rw [setItemIO_missing ⟨k, hk, hnone⟩] at hst
    exact Except.noConfusion hst
  · intro hall
    exact ⟨_, setItemIO_allPresent hall⟩

theorem claim_C8_required_fields_amended_witness :
    setItemIO [] "T" [("id", Value.str "i")] =
      Except.error ⟨ErrKind.syntaxError, "Line:T is irregular"⟩ ∧
    (∃ st, setItemIO [] "T2" recSixOnly = Except.ok st) :=
  ⟨(claim_C8_required_fields_amended [] "T" [("id", Value.str "i")]).2
     ⟨"meta", by decide, rfl⟩,
   (claim_C8_required_fields_amended [] "T2" recSixOnly).1.mpr (by decide)⟩

theorem dictSet_append {α : Type} (d : List (String × α)) (k : String) (v : α)
    (hk : k ∉ d.map Prod.fst) : dictSet d k v = d ++ [(k, v)] := by
  induction d with
  | nil => rfl
  | cons hd tl ih =>
      obtain ⟨k2, v2⟩ := hd
      simp only [List.map_cons, List.mem_cons, not_or] at hk
      obtain ⟨hne, hk2⟩ := hk
      simp only [dictSet]
      rw [if_neg (fun hh => hne hh.symm), ih hk2, List.cons_append]

theorem setItem_schema (acc : List (String × IOType)) (io_id : String) (t : IOType) :
    setItemIO acc io_id t.schema = Except.ok (dictSet acc io_id t) := by
  have hall : ∀ k ∈ requiredProperties, (List.lookup k t.schema).isSome = true := by
    intro k hk
    simp only [requiredProperties, List.mem_cons, List.not_mem_nil, or_false] at hk
    rcases hk with rfl | rfl | rfl | rfl | rfl | rfl <;> rfl
  rw [setItemIO_allPresent hall]
  rfl

theorem loadDict_roundtrip_aux (S : List (String × IOType)) :
    ∀ acc : List (String × IOType),
    (∀ k ∈ S.map Prod.fst, k ∉ acc.map Prod.fst) → (S.map Prod.fst).Nodup →
    (toDictStack S).foldlM (fun a kv => setItemIO a kv.1 kv.2) acc =
      Except.ok (acc ++ S) := by
  induction S with
  | nil =>
      intro acc _ _
      simp only [toDictStack, List.map_nil, List.foldlM_nil, List.append_nil]
      rfl
  | cons hd tl ih =>
      intro acc hdisj hnd
      obtain ⟨k, t⟩ := hd
      simp only [toDictStack, List.map_cons] at *
      rw [List.foldlM_cons]
      rw [setItem_schema, except_bind_ok]
      rw [dictSet_append acc k t (hdisj k (List.mem_cons_self _ _))]
      have hstep := ih (acc ++ [(k, t)]) ?_ hnd.of_cons
      · rw [hstep, List.append_assoc]
        rfl
      · intro k2 hk2
        simp only [List.map_append, List.mem_append, List.map_cons, List.map_nil,
          List.mem_cons, List.not_mem_nil, or_false, not_or]
        refine ⟨hdisj k2 (List.mem_cons_of_mem _ hk2), fun heq => ?_⟩
        subst heq
        exact (List.nodup_cons.mp hnd).1 hk2

/-- C9: exporting a registry to its record mapping (what `to_json`
serialises) and re-importing it through `_load_dict` / `__setitem__`
reproduces the identical id-to-IOType mapping — same keys in the same
order, and for each key the same meta, id, name, doc, condition and
version. -/
theorem claim_C9_roundtrip (S : List (String × IOType))
    (hnd : (S.map Prod.fst).Nodup) :
    loadDictStack (toDictStack S) = Except.ok S := by
  have h := loadDict_roundtrip_aux S [] (by simp) hnd
  simpa [loadDictStack] using h

theorem claim_C9_roundtrip_witness :
    (([("n", numberIOType), ("r", ⟨Value.str "string", Value.str "r",
        Value.str "r", Value.str "", Value.str "[0-9]+", Value.str "1"⟩)].map
      Prod.fst).Nodup) ∧
    loadDictStack (toDictStack [("n", numberIOType), ("r", ⟨Value.str "string",
        Value.str "r", Value.str "r", Value.str "", Value.str "[0-9]+",
        Value.str "1"⟩)]) =
      Except.ok [("n", numberIOType), ("r", ⟨Value.str "string", Value.str "r",
        Value.str "r", Value.str "", Value.str "[0-9]+", Value.str "1"⟩)] :=
  ⟨by decide, claim_C9_roundtrip _ (by decide)⟩

end EasyAccess
